import Mathlib

/-!
Verification of the state-transfer coordinator of galera
(src/galera/src/replicator_str.cpp).

Byte strings are modelled as lists of naturals below 256.  Machine
integers appearing in the code (ssize_t, wsrep_seqno_t, int) are
modelled as Nat or Int; the wire representation of uint32 length
fields uses four explicit bytes.  Fallible constructors are modelled
with Except, collaborator calls (group layer, write-set cache, SST
callback, IST sender pool) with explicit outcome parameters, matching
the collaborator contracts of the specification.
-/

/-! ### Error numbers (linux errno values used by the source) -/

def EINVAL : Nat := 22
def EMSGSIZE : Nat := 90
def ENODATA : Int := 61
def ECANCELED : Int := 125
def EAGAIN : Int := 11
def ENOTCONN : Int := 107
def EDEADLK : Int := 35

/-! ### Request codec: StateRequest_v1 (replicator_str.cpp lines 99-241)

The magic string is STRv1; MAGIC.length() is 5 and the NUL terminator
written by strcpy occupies one further byte, so sst_offset() = 6.
Multi-byte wire integers: htogl and gtohl are not under src/;
modelled from the spec: all multi-byte integers on the wire are
big-endian.  The round-trip statements are insensitive to the
particular byte order because encoding and decoding use the same
pair of inverse functions, exactly as htogl and gtohl do. -/

def magicBytes : List Nat := [83, 84, 82, 118, 49]

/-- Big-endian encoding of a uint32 value (htogl in the source). -/
def be32 (n : Nat) : List Nat :=
  [n / 16777216 % 256, n / 65536 % 256, n / 256 % 256, n % 256]

/-- Big-endian 32-bit read (gtohl applied to the 4 bytes at the head). -/
def readBE32 (l : List Nat) : Nat :=
  match l with
  | b0 :: b1 :: b2 :: b3 :: _ => b0 * 16777216 + b1 * 65536 + b2 * 256 + b3
  | _ => 0

/-- The building constructor StateRequest_v1(sst_req, sst_req_len,
ist_req, ist_req_len) (lines 148-188): rejects sub-lengths above
INT32_MAX with EMSGSIZE, otherwise concatenates the NUL-terminated
magic and the two length-prefixed payloads. -/
def StateRequest_v1_encode (sst ist : List Nat) : Except Nat (List Nat) :=
  if sst.length > 2147483647 then .error EMSGSIZE
  else if ist.length > 2147483647 then .error EMSGSIZE
  else .ok (magicBytes ++ 0 :: (be32 sst.length ++ (sst ++ (be32 ist.length ++ ist))))

/-- The parsing constructor StateRequest_v1(str, str_len)
(lines 191-223) together with the sst_req/sst_len/ist_req/ist_len
accessors: checks the minimal length, the 5-byte magic, that the sst
field fits, and that the two fields consume the buffer exactly, then
returns the two sub-payload slices. -/
def StateRequest_v1_decode (b : List Nat) : Except Nat (List Nat × List Nat) :=
  if 14 > b.length then .error EINVAL
  else if b.take 5 ≠ magicBytes then .error EINVAL
  else
    let sstLen := readBE32 (b.drop 6)
    if 6 + sstLen + 8 > b.length then .error EINVAL
    else
      let istLen := readBE32 (b.drop (10 + sstLen))
      if 10 + sstLen + istLen + 4 ≠ b.length then .error EINVAL
      else .ok ((b.drop 10).take sstLen, (b.drop (14 + sstLen)).take istLen)

/-- Result of read_state_request: either a v0 request (the whole
buffer is the SST payload) or a parsed v1 request. -/
inductive StateRequest where
  | v0 (bytes : List Nat)
  | v1 (sst ist : List Nat)
deriving DecidableEq

/-- read_state_request (lines 226-241): dispatches on
req_len > MAGIC.length() together with strncmp of the first
MAGIC.length() = 5 bytes; anything else is a v0 request. -/
def read_state_request (b : List Nat) : Except Nat StateRequest :=
  if 5 < b.length ∧ b.take 5 = magicBytes then
    (StateRequest_v1_decode b).map (fun p => StateRequest.v1 p.1 p.2)
  else .ok (StateRequest.v0 b)

/-! ### Trivial-SST sentinel (lines 297-304) -/

/-- Modelled from the spec: ReplicatorSMM::TRIVIAL_SST is declared in
replicator_smm.hpp which is not under src/; the spec names the
sentinel payload "trivial".  These are the bytes of the string
together with its NUL terminator, strlen(TRIVIAL_SST) + 1 = 8. -/
def trivialSentinel : List Nat := [116, 114, 105, 118, 105, 97, 108, 0]

/-- sst_is_trivial (lines 297-304): the request is trivial when it is
at least strlen(TRIVIAL_SST) + 1 bytes long and its first
strlen(TRIVIAL_SST) + 1 bytes equal the sentinel and its NUL. -/
def sst_is_trivial (b : List Nat) : Bool :=
  decide (8 ≤ b.length ∧ b.take 8 = trivialSentinel)

/-! ### IST descriptor text form (lines 244-295)

The descriptor is written by operator<< as
uuid, colon, last_applied, hyphen, group_seqno, bar, peer and read
back by operator>> as
is >> uuid >> c >> last_applied >> c >> group_seqno >> c >> peer.
The istream extraction semantics modelled here: every formatted
extraction first skips whitespace; char extraction takes one
character; integer extraction takes an optional sign and a maximal
nonempty digit run; string extraction takes a maximal nonempty run of
non-whitespace characters; a failed extraction stops the chain and
leaves the remaining fields of the value-initialized IST_request at
their defaults. -/

/-- isspace in the C locale: 0x20 and 0x09 to 0x0D. -/
def isSpaceC (c : Char) : Bool :=
  decide (c.toNat = 32 ∨ (9 ≤ c.toNat ∧ c.toNat ≤ 13))

/-- Decimal digit characters 0 to 9. -/
def isDigitC (c : Char) : Bool :=
  decide (48 ≤ c.toNat ∧ c.toNat ≤ 57)

/-- Skip leading whitespace, as the istream sentry does. -/
def skipWs (s : List Char) : List Char := s.dropWhile isSpaceC

/-- Formatted char extraction: skip whitespace, take one character. -/
def readChar (s : List Char) : Option (Char × List Char) :=
  match skipWs s with
  | [] => none
  | c :: rest => some (c, rest)

/-- Formatted string extraction: skip whitespace, then a maximal
nonempty run of non-whitespace characters. -/
def readString (s : List Char) : Option (List Char × List Char) :=
  let t := skipWs s
  if t = [] then none
  else some (t.takeWhile (fun x => ! isSpaceC x), t.dropWhile (fun x => ! isSpaceC x))

/-- Accumulate the value of a big-endian decimal digit string. -/
def charsToNat (l : List Char) : Nat :=
  l.foldl (fun a c => a * 10 + (c.toNat - 48)) 0

/-- Read a maximal nonempty digit run and its value. -/
def readNat (s : List Char) : Option (Nat × List Char) :=
  let ds := s.takeWhile isDigitC
  if ds = [] then none
  else some (charsToNat ds, s.dropWhile isDigitC)

/-- Formatted integer extraction: skip whitespace, optional sign,
then a nonempty digit run. -/
def readInt (s : List Char) : Option (Int × List Char) :=
  match skipWs s with
  | [] => none
  | c :: t1 =>
    if c = Char.ofNat 45 then (readNat t1).map (fun p => (-(p.1 : Int), p.2))
    else if c = Char.ofNat 43 then (readNat t1).map (fun p => ((p.1 : Int), p.2))
    else (readNat (c :: t1)).map (fun p => ((p.1 : Int), p.2))

/-- The decimal digit character of d. -/
def digitChar (d : Nat) : Char := Char.ofNat (48 + d)

/-- Big-endian digit characters of n, with explicit fuel so that the
recursion is structural. -/
def natToCharsAux : Nat → Nat → List Char
  | 0, _ => []
  | fuel + 1, n => if n = 0 then [] else natToCharsAux fuel (n / 10) ++ [digitChar (n % 10)]

/-- Decimal text of a natural number, as ostream prints it. -/
def natToChars (n : Nat) : List Char :=
  if n = 0 then [digitChar 0] else natToCharsAux n n

/-- Decimal text of an integer, as ostream prints a wsrep_seqno_t. -/
def intChars (i : Int) : List Char :=
  if i < 0 then Char.ofNat 45 :: natToChars i.natAbs else natToChars i.natAbs

/-- Lowercase hex digit character of d. -/
def hexDigitChar (d : Nat) : Char :=
  if d < 10 then Char.ofNat (48 + d) else Char.ofNat (87 + d)

/-- Value of a hex digit character, either case. -/
def hexVal (c : Char) : Option Nat :=
  if 48 ≤ c.toNat ∧ c.toNat ≤ 57 then some (c.toNat - 48)
  else if 97 ≤ c.toNat ∧ c.toNat ≤ 102 then some (c.toNat - 87)
  else if 65 ≤ c.toNat ∧ c.toNat ≤ 70 then some (c.toNat - 55)
  else none

/-- Two hex characters of one byte. -/
def byteToHex (b : Nat) : List Char := [hexDigitChar (b / 16), hexDigitChar (b % 16)]

/-- Hex characters of a byte string. -/
def bytesToHex (bs : List Nat) : List Char := (bs.map byteToHex).flatten

/-- Read one byte from two hex characters. -/
def readHexByte (s : List Char) : Option (Nat × List Char) :=
  match s with
  | c1 :: c2 :: rest =>
    match hexVal c1, hexVal c2 with
    | some h, some l => some (h * 16 + l, rest)
    | _, _ => none
  | _ => none

/-- Read n bytes worth of hex characters. -/
def readHexBytes : Nat → List Char → Option (List Nat × List Char)
  | 0, s => some ([], s)
  | n + 1, s =>
    match readHexByte s with
    | none => none
    | some (b, s1) =>
      match readHexBytes n s1 with
      | none => none
      | some (bs, s2) => some (b :: bs, s2)

/-- Require one particular character. -/
def expectChar (c : Char) (s : List Char) : Option (List Char) :=
  match s with
  | [] => none
  | x :: rest => if x = c then some rest else none

/-- A 16-byte history identifier (wsrep_uuid_t). -/
structure WsrepUUID where
  data : List Nat
deriving DecidableEq

/-- Modelled from the spec: the uuid text codec (operator<< and
operator>> for wsrep_uuid_t live in galerautils, not under src/); the
spec fixes the canonical 36-character hyphenated form, that is the
byte groups 4-2-2-2-6 in hex separated by hyphens. -/
def uuidToChars (u : WsrepUUID) : List Char :=
  bytesToHex (u.data.take 4) ++
    Char.ofNat 45 :: (bytesToHex ((u.data.drop 4).take 2) ++
      Char.ofNat 45 :: (bytesToHex ((u.data.drop 6).take 2) ++
        Char.ofNat 45 :: (bytesToHex ((u.data.drop 8).take 2) ++
          Char.ofNat 45 :: bytesToHex (u.data.drop 10))))

/-- Modelled from the spec: parse of the canonical 36-character
hyphenated uuid form, the inverse of uuidToChars. -/
def readUuid (s : List Char) : Option (WsrepUUID × List Char) :=
  match readHexBytes 4 (skipWs s) with
  | none => none
  | some (g1, t1) =>
    match expectChar (Char.ofNat 45) t1 with
    | none => none
    | some t2 =>
      match readHexBytes 2 t2 with
      | none => none
      | some (g2, t3) =>
        match expectChar (Char.ofNat 45) t3 with
        | none => none
        | some t4 =>
          match readHexBytes 2 t4 with
          | none => none
          | some (g3, t5) =>
            match expectChar (Char.ofNat 45) t5 with
            | none => none
            | some t6 =>
              match readHexBytes 2 t6 with
              | none => none
              | some (g4, t7) =>
                match expectChar (Char.ofNat 45) t7 with
                | none => none
                | some t8 =>
                  match readHexBytes 6 t8 with
                  | none => none
                  | some (g5, t9) => some (⟨g1 ++ g2 ++ g3 ++ g4 ++ g5⟩, t9)

/-- The IST_request data (lines 244-269). -/
structure IST_request where
  peer : List Char
  uuid : WsrepUUID
  last_applied : Int
  group_seqno : Int
deriving DecidableEq

/-- The value-initialized IST_request produced by its default
constructor: empty peer, zero uuid, zero seqnos. -/
def defaultIST : IST_request :=
  { peer := [], uuid := ⟨List.replicate 16 0⟩, last_applied := 0, group_seqno := 0 }

/-- operator<< for IST_request (lines 271-278). -/
def formatIST (r : IST_request) : List Char :=
  uuidToChars r.uuid ++
    Char.ofNat 58 :: (intChars r.last_applied ++
      Char.ofNat 45 :: (intChars r.group_seqno ++
        Char.ofNat 124 :: r.peer))

/-- operator>> for IST_request (lines 280-285) as used by
get_ist_request (lines 287-295): the separator characters are read
but never compared against anything; a failed extraction leaves the
remaining fields at their defaults; get_ist_request ignores the
stream state.  The Bool is the final stream-good flag. -/
def parseIST (s : List Char) : IST_request × Bool :=
  match readUuid s with
  | none => (defaultIST, false)
  | some (u, s1) =>
    match readChar s1 with
    | none => ({ defaultIST with uuid := u }, false)
    | some (_, s2) =>
      match readInt s2 with
      | none => ({ defaultIST with uuid := u }, false)
      | some (la, s3) =>
        match readChar s3 with
        | none => ({ defaultIST with uuid := u, last_applied := la }, false)
        | some (_, s4) =>
          match readInt s4 with
          | none => ({ defaultIST with uuid := u, last_applied := la }, false)
          | some (gs, s5) =>
            match readChar s5 with
            | none =>
              ({ defaultIST with uuid := u, last_applied := la, group_seqno := gs }, false)
            | some (_, s6) =>
              match readString s6 with
              | none =>
                ({ defaultIST with uuid := u, last_applied := la, group_seqno := gs }, false)
              | some (p, _) =>
                ({ peer := p, uuid := u, last_applied := la, group_seqno := gs }, true)

/-! ### Donor state machine: process_state_req (lines 325-505)

Collaborator outcomes are explicit inputs, following the collaborator
contracts of the specification: whether gcache.seqno_lock finds the
requested seqno, whether the SST donate callback reports success in
bypass and in non-bypass mode, and whether ist_senders_.run returns
normally or throws a gu::Exception with some errno. -/

/-- The sst_req()/sst_len() accessor pair of a request: for v0 the
whole buffer, for v1 the sst slice. -/
def StateRequest.sstPayload : StateRequest → List Nat
  | .v0 b => b
  | .v1 s _ => s

/-- The ist_req()/ist_len() accessor pair of a request: for v0 empty
(ist_len() is 0), for v1 the ist slice. -/
def StateRequest.istPayload : StateRequest → List Nat
  | .v0 _ => []
  | .v1 _ i => i

/-- Modelled from the spec: WSREP_STATE_TRANSFER_NONE is the legacy
skip sentinel from the external wsrep API header; its payload text is
the string none. -/
def wstNoneBytes : List Nat := [110, 111, 110, 101]

/-- get_ist_request (lines 287-295): the ist slice is wrapped in a
string and parsed with operator>>. -/
def parseISTbytes (ist : List Nat) : IST_request :=
  (parseIST (ist.map Char.ofNat)).1

/-- The skip_state_transfer condition (lines 353-363): the payload is
the trivial sentinel, or its NUL-terminated prefix string equals the
legacy sentinel. -/
def donorSkip (sst : List Nat) : Bool :=
  sst_is_trivial sst || decide (sst.takeWhile (fun b => b ≠ 0) = wstNoneBytes)

/-- Collaborator outcomes and donor-local state for one
process_state_req run. -/
structure DonorCtx where
  state_uuid : WsrepUUID
  cc_seqno : Int
  donor_seq : Int
  lockOk : Bool
  bypassDonateOk : Bool
  fullDonateOk : Bool
  istRunErr : Option Int
deriving DecidableEq

/-- Observable outcome of one process_state_req run.  guardUnlock
records whether the sgl scope guard performed seqno_unlock on exit;
istLaunched records that ist_senders_.run succeeded, taking over the
lock. -/
structure DonorResult where
  rcode : Int := 0
  join_now : Bool := true
  bypassDonated : Bool := false
  fullDonated : Bool := false
  bypassFailed : Bool := false
  senderFailed : Bool := false
  istLaunched : Bool := false
  guardUnlock : Bool := false
  lockAcquired : Bool := false
  joinCalled : Bool := false
  joinArg : Int := 0
deriving DecidableEq

/-- The out label (lines 496-505): gcs_.join is called when join_now
is still set or the result is negative, with the result code or with
donor_seq. -/
def donorOut (r : DonorResult) (donor_seq : Int) : DonorResult :=
  { r with joinCalled := r.join_now || decide (r.rcode < 0),
           joinArg := if r.rcode < 0 then r.rcode else donor_seq }

/-- The full_sst label (lines 476-494): donate in non-bypass mode
when an SST payload is present, else fail with ECANCELED. -/
def donorFullSst (ctx : DonorCtx) (sst : List Nat) (lockAcq : Bool) : DonorResult :=
  if sst.length ≠ 0 then
    donorOut
      { rcode := if ctx.fullDonateOk then ctx.donor_seq else -ECANCELED,
        join_now := false, fullDonated := true, lockAcquired := lockAcq }
      ctx.donor_seq
  else
    donorOut { rcode := -ECANCELED, lockAcquired := lockAcq } ctx.donor_seq

/-- The IST branch body once seqno_lock succeeded (lines 399-472):
optional bypass donate, then launch of the IST sender which takes
over the cache lock; on any failure the scope guard keeps the duty to
unlock. -/
def donorIstLocked (ctx : DonorCtx) (sst ist : List Nat) : DonorResult :=
  let la := (parseISTbytes ist).last_applied
  if sst.length ≠ 0 then
    let rc1 := if ctx.bypassDonateOk then la else -ECANCELED
    if rc1 ≥ 0 then
      match ctx.istRunErr with
      | none =>
        donorOut
          { rcode := rc1, join_now := false, bypassDonated := true,
            bypassFailed := ! ctx.bypassDonateOk, istLaunched := true,
            lockAcquired := true } ctx.donor_seq
      | some e =>
        donorOut
          { rcode := -e, join_now := false, bypassDonated := true,
            bypassFailed := ! ctx.bypassDonateOk, senderFailed := true,
            guardUnlock := true, lockAcquired := true } ctx.donor_seq
    else
      donorOut
        { rcode := rc1, join_now := false, bypassDonated := true,
          bypassFailed := ! ctx.bypassDonateOk, guardUnlock := true,
          lockAcquired := true } ctx.donor_seq
  else
    match ctx.istRunErr with
    | none =>
      donorOut { istLaunched := true, lockAcquired := true } ctx.donor_seq
    | some e =>
      donorOut
        { rcode := -e, senderFailed := true, guardUnlock := true,
          lockAcquired := true } ctx.donor_seq

/-- process_state_req (lines 325-505) after decoding, with monitor
interaction elided: the skip sentinels, the IST attempt guarded by
the uuid comparison and the cache lock, the NotFound fallback to
full_sst or ENODATA, and the out label. -/
def process_state_req (ctx : DonorCtx) (streq : StateRequest) : DonorResult :=
  let sst := streq.sstPayload
  let ist := streq.istPayload
  if donorSkip sst then
    donorOut {} ctx.donor_seq
  else if ist.length ≠ 0 ∧ (parseISTbytes ist).uuid = ctx.state_uuid then
    if ctx.lockOk then donorIstLocked ctx sst ist
    else if sst.length = 0 then
      donorOut { rcode := -ENODATA } ctx.donor_seq
    else donorFullSst ctx sst false
  else donorFullSst ctx sst false

/-! ### Joiner send loop: send_state_request (lines 617-756)

The group layer outcomes are an explicit list: each attempt carries
the return value of gcs_.request_state_transfer, the local seqno it
assigned (GCS_SEQNO_ILL = -1 when none), and whether the local
monitor reports would_block for that seqno. -/

/-- One outcome of gcs_.request_state_transfer. -/
structure Attempt where
  ret : Int
  seqno_l : Int
  wouldBlock : Bool
deriving DecidableEq

/-- Operations on the recovery marker store observed during the
run. -/
inductive MarkerOp where
  | markSafe
  | markUnsafe
  | setPos
deriving DecidableEq

/-- How a send_state_request run ends: process abort, a return
value, or the outcome list was exhausted while retrying. -/
inductive SendOutcome where
  | aborted
  | returned (ret : Int)
  | outOfAttempts
deriving DecidableEq

/-- Observable outcome of a send_state_request run. -/
structure SendResult where
  outcome : SendOutcome
  markerOps : List MarkerOp
  gcsCalls : Nat
  sstReqFailed : Bool
deriving DecidableEq

/-- retry_str (lines 617-621). -/
def retry_str (ret : Int) : Bool := decide (ret = -EAGAIN ∨ ret = -ENOTCONN)

/-- The local-monitor slot handling of one attempt (lines 685-703):
when a local seqno was assigned and the monitor would block, the
result is overwritten with EDEADLK, otherwise the slot is
self-cancelled and the result kept. -/
def effRet (a : Attempt) : Int :=
  if a.seqno_l ≠ -1 ∧ a.wouldBlock then -EDEADLK else a.ret

/-- The tail of send_state_request after the loop (lines 707-753).
The first argument mu is the constructor argument recording whether
the caller flagged the marker store before sending; sgc is the
comparison state_() > S_CLOSING. -/
def sendFinish (mu sgc : Bool) (ret : Int) (calls : Nat) : SendResult :=
  if ret ≥ 0 then
    { outcome := .returned ret, markerOps := [], gcsCalls := calls,
      sstReqFailed := false }
  else if ret ≠ -ENODATA ∧ sgc then
    { outcome := .aborted,
      markerOps := .setPos :: (if mu then [] else [.markUnsafe]),
      gcsCalls := calls, sstReqFailed := true }
  else
    { outcome := .returned ret,
      markerOps := .setPos :: (if mu then [.markSafe] else []),
      gcsCalls := calls, sstReqFailed := true }

/-- The do-while send loop (lines 640-705): an ENODATA result makes
the process abort at once, after restoring the safe mark when mu is
set; retryable results loop; anything else falls to the tail. -/
def sendLoop (mu sgc : Bool) : List Attempt → Nat → SendResult
  | [], calls =>
    { outcome := .outOfAttempts, markerOps := [], gcsCalls := calls,
      sstReqFailed := false }
  | a :: rest, calls =>
    if a.ret = -ENODATA then
      { outcome := .aborted, markerOps := if mu then [.markSafe] else [],
        gcsCalls := calls + 1, sstReqFailed := false }
    else
      if retry_str (effRet a) then sendLoop mu sgc rest (calls + 1)
      else sendFinish mu sgc (effRet a) (calls + 1)

/-- send_state_request (lines 623-756) over an outcome list. -/
def send_state_request (mu sgc : Bool) (attempts : List Attempt) : SendResult :=
  sendLoop mu sgc attempts 0

/-! ### sst_received (lines 32-75) -/

/-- Coordinator states. -/
inductive RState where
  | S_CONNECTED
  | S_JOINING
  | S_JOINED
  | S_SYNCED
  | S_DONOR
  | S_CLOSING
  | S_CLOSED
deriving DecidableEq

/-- The two wsrep status values sst_received can return. -/
inductive WStatus where
  | WSREP_OK
  | WSREP_CONN_FAIL
deriving DecidableEq

/-- Ordered actions of sst_received under sst_mutex_. -/
inductive SstEvent where
  | storeUuid
  | storeSeqno
  | signalCond
  | checkState
deriving DecidableEq

/-- Observable outcome of one sst_received call. -/
structure SstReceivedResult where
  sst_uuid : WsrepUUID
  sst_seqno : Int
  canceledSet : Bool
  events : List SstEvent
  ret : WStatus
deriving DecidableEq

/-- sst_received (lines 32-75): under the mutex the result uuid and
seqno are stored, the condition is signalled, and only then the state
check decides the return value; JOINING and CONNECTED succeed,
anything else is WSREP_CONN_FAIL.  A nonzero rcode stores the
undefined seqno, and ECANCELED also records SST_CANCELED. -/
def sst_received (st : RState) (uuid : WsrepUUID) (seqno : Int) (rcode : Int) :
    SstReceivedResult :=
  { sst_uuid := uuid,
    sst_seqno := if rcode ≠ 0 then -1 else seqno,
    canceledSet := decide (rcode = -ECANCELED),
    events := [.storeUuid, .storeSeqno, .signalCond, .checkState],
    ret := if st = .S_JOINING ∨ st = .S_CONNECTED then .WSREP_OK
           else .WSREP_CONN_FAIL }

/-! ### Helper lemmas -/

/-- Reading back a big-endian encoded uint32 below 2^32. -/
theorem readBE32_be32 (n : Nat) (h : n < 4294967296) (rest : List Nat) :
    readBE32 (be32 n ++ rest) = n := by
  simp only [be32, readBE32, List.cons_append, List.nil_append]
  omega

/-! ### Claim C1 -/

/-- Claim C1: for byte strings whose lengths are in the signed 32-bit
range, parsing the v1 envelope built by the building constructor
gives back the original SST and IST payloads. -/
theorem strv1_encode_decode_roundtrip (sst ist : List Nat)
    (hs : sst.length < 2147483648) (hi : ist.length < 2147483648)
    (hsb : ∀ b ∈ sst, b < 256) (hib : ∀ b ∈ ist, b < 256) :
    (StateRequest_v1_encode sst ist >>= StateRequest_v1_decode)
      = Except.ok (sst, ist) := by
  have h1 : ¬ sst.length > 2147483647 := by omega
  have h2 : ¬ ist.length > 2147483647 := by omega
  have hkey : StateRequest_v1_decode
      (magicBytes ++ 0 :: (be32 sst.length ++ (sst ++ (be32 ist.length ++ ist))))
      = Except.ok (sst, ist) := by
    have hlen :
        (magicBytes ++ 0 :: (be32 sst.length ++ (sst ++ (be32 ist.length ++ ist)))).length
          = 14 + sst.length + ist.length := by
      simp [magicBytes, be32]
      omega
    have h6 :
        (magicBytes ++ 0 :: (be32 sst.length ++ (sst ++ (be32 ist.length ++ ist)))).drop 6
          = be32 sst.length ++ (sst ++ (be32 ist.length ++ ist)) := rfl
    have h10 :
        (magicBytes ++ 0 :: (be32 sst.length ++ (sst ++ (be32 ist.length ++ ist)))).drop 10
          = sst ++ (be32 ist.length ++ ist) := rfl
    have hsstLen :
        readBE32 ((magicBytes ++
            0 :: (be32 sst.length ++ (sst ++ (be32 ist.length ++ ist)))).drop 6)
          = sst.length := by
      rw [h6]
      exact readBE32_be32 _ (by omega) _
    have h10s :
        (magicBytes ++
            0 :: (be32 sst.length ++ (sst ++ (be32 ist.length ++ ist)))).drop
              (10 + sst.length)
          = be32 ist.length ++ ist := by
      rw [← List.drop_drop, h10]
      exact List.drop_left _ _
    have histLen :
        readBE32 ((magicBytes ++
            0 :: (be32 sst.length ++ (sst ++ (be32 ist.length ++ ist)))).drop
              (10 + sst.length))
          = ist.length := by
      rw [h10s]
      exact readBE32_be32 _ (by omega) _
    have h14 :
        (magicBytes ++
            0 :: (be32 sst.length ++ (sst ++ (be32 ist.length ++ ist)))).drop
              (14 + sst.length)
          = ist := by
      rw [(by omega : (14 : Nat) + sst.length = 10 + sst.length + 4), ← List.drop_drop, h10s]
      rfl
    have htake5 :
        (magicBytes ++
            0 :: (be32 sst.length ++ (sst ++ (be32 ist.length ++ ist)))).take 5
          = magicBytes := rfl
    unfold StateRequest_v1_decode
    simp only [hsstLen, histLen, h10, h14, htake5]
    rw [if_neg (by rw [hlen]; omega)]
    rw [if_neg (fun hne => hne rfl)]
    rw [if_neg (by rw [hlen]; omega)]
    rw [if_neg (by rw [hlen]; omega)]
    rw [List.take_left, List.take_length]
  unfold StateRequest_v1_encode
  rw [if_neg h1, if_neg h2]
  simpa using hkey

/-- Witness for claim C1 at a concrete pair of payloads. -/
theorem strv1_encode_decode_roundtrip_witness :
    ([1, 2] : List Nat).length < 2147483648 ∧ ([3] : List Nat).length < 2147483648 ∧
      (∀ b ∈ ([1, 2] : List Nat), b < 256) ∧ (∀ b ∈ ([3] : List Nat), b < 256) ∧
      (StateRequest_v1_encode [1, 2] [3] >>= StateRequest_v1_decode)
        = Except.ok ([1, 2], [3]) :=
  ⟨by decide, by decide, by decide, by decide,
    strv1_encode_decode_roundtrip [1, 2] [3] (by decide) (by decide) (by decide) (by decide)⟩

/-! ### Claim C2 -/

/-- Claim C2 counterexample: the 14-byte v1 envelope whose SST and
IST sub-lengths are both zero is not rejected; the parsing
constructor succeeds and returns two empty payloads. -/
theorem strv1_decode_both_zero_cex :
    StateRequest_v1_decode [83, 84, 82, 118, 49, 0, 0, 0, 0, 0, 0, 0, 0, 0]
      = Except.ok ([], []) := rfl

/-- Claim C2 amended: every v1 envelope whose two sub-lengths are
zero (hence of total length 14 and with a valid magic) is accepted by
the parsing constructor, which returns empty SST and IST slices. -/
theorem strv1_decode_both_zero_accepted (b : List Nat)
    (hl : b.length = 14) (hm : b.take 5 = magicBytes)
    (hs : readBE32 (b.drop 6) = 0) (hi : readBE32 (b.drop 10) = 0) :
    StateRequest_v1_decode b = Except.ok ([], []) := by
  unfold StateRequest_v1_decode
  simp only [hs]
  rw [if_neg (by omega)]
  rw [if_neg (fun hne => hne hm)]
  rw [if_neg (by omega)]
  have h10 : (10 : Nat) + 0 = 10 := rfl
  rw [h10, hi]
  rw [if_neg (by omega)]
  simp

/-- Witness for the amended claim C2 at the concrete envelope. -/
theorem strv1_decode_both_zero_accepted_witness :
    ([83, 84, 82, 118, 49, 0, 0, 0, 0, 0, 0, 0, 0, 0] : List Nat).length = 14 ∧
      ([83, 84, 82, 118, 49, 0, 0, 0, 0, 0, 0, 0, 0, 0] : List Nat).take 5 = magicBytes ∧
      readBE32 (([83, 84, 82, 118, 49, 0, 0, 0, 0, 0, 0, 0, 0, 0] : List Nat).drop 6) = 0 ∧
      readBE32 (([83, 84, 82, 118, 49, 0, 0, 0, 0, 0, 0, 0, 0, 0] : List Nat).drop 10) = 0 ∧
      StateRequest_v1_decode [83, 84, 82, 118, 49, 0, 0, 0, 0, 0, 0, 0, 0, 0]
        = Except.ok ([], []) :=
  ⟨by decide, by decide, by decide, by decide,
    strv1_decode_both_zero_accepted _ (by decide) (by decide) (by decide) (by decide)⟩

/-! ### Claim C3 -/

/-- Claim C3 counterexample: a buffer whose first 5 bytes are the
magic but whose 6th byte is 88 rather than NUL is not treated as a v0
envelope; read_state_request decodes it as v1. -/
theorem read_state_request_sixth_byte_cex :
    read_state_request [83, 84, 82, 118, 49, 88, 0, 0, 0, 0, 0, 0, 0, 0]
      = Except.ok (StateRequest.v1 [] []) := rfl

/-- Claim C3 amended: version detection compares only the 5-byte
magic, not the trailing NUL; every buffer longer than 5 bytes whose
first 5 bytes equal the magic, even with a non-NUL 6th byte, is
handed to the v1 parsing constructor and is never treated as a v0
envelope. -/
theorem read_state_request_five_byte_magic (b : List Nat)
    (hl : 5 < b.length) (hm : b.take 5 = magicBytes) (h6 : b.getD 5 0 ≠ 0) :
    read_state_request b
        = (StateRequest_v1_decode b).map (fun p => StateRequest.v1 p.1 p.2)
      ∧ ∀ v, read_state_request b ≠ Except.ok (StateRequest.v0 v) := by
  have hcond : 5 < b.length ∧ b.take 5 = magicBytes := ⟨hl, hm⟩
  constructor
  · unfold read_state_request
    rw [if_pos hcond]
  · intro v
    unfold read_state_request
    rw [if_pos hcond]
    cases hdec : StateRequest_v1_decode b <;> simp [Except.map]

/-- Witness for the amended claim C3 at the concrete buffer. -/
theorem read_state_request_five_byte_magic_witness :
    5 < ([83, 84, 82, 118, 49, 88, 0, 0, 0, 0, 0, 0, 0, 0] : List Nat).length ∧
      ([83, 84, 82, 118, 49, 88, 0, 0, 0, 0, 0, 0, 0, 0] : List Nat).take 5 = magicBytes ∧
      ([83, 84, 82, 118, 49, 88, 0, 0, 0, 0, 0, 0, 0, 0] : List Nat).getD 5 0 ≠ 0 ∧
      (read_state_request [83, 84, 82, 118, 49, 88, 0, 0, 0, 0, 0, 0, 0, 0]
          = (StateRequest_v1_decode [83, 84, 82, 118, 49, 88, 0, 0, 0, 0, 0, 0, 0, 0]).map
              (fun p => StateRequest.v1 p.1 p.2)
        ∧ ∀ v, read_state_request [83, 84, 82, 118, 49, 88, 0, 0, 0, 0, 0, 0, 0, 0]
            ≠ Except.ok (StateRequest.v0 v)) :=
  ⟨by decide, by decide, by decide,
    read_state_request_five_byte_magic _ (by decide) (by decide) (by decide)⟩

/-! ### Claim C10 -/

/-- Claim C10: sst_is_trivial is a pure prefix check: any payload of
length at least 8 whose first 8 bytes are the sentinel text and its
NUL is trivial whatever follows, and any shorter payload is not. -/
theorem sst_is_trivial_prefix_check (b : List Nat) :
    (8 ≤ b.length → b.take 8 = trivialSentinel → sst_is_trivial b = true)
    ∧ (b.length < 8 → sst_is_trivial b = false) := by
  constructor
  · intro h1 h2
    simp [sst_is_trivial, h1, h2]
  · intro h
    simp only [sst_is_trivial, decide_eq_false_iff_not]
    intro hc
    omega

/-- Witness for claim C10: a payload with trailing garbage after the
sentinel is trivial, a 7-byte payload is not. -/
theorem sst_is_trivial_prefix_check_witness :
    (8 ≤ ([116, 114, 105, 118, 105, 97, 108, 0, 99] : List Nat).length ∧
        ([116, 114, 105, 118, 105, 97, 108, 0, 99] : List Nat).take 8 = trivialSentinel ∧
        sst_is_trivial [116, 114, 105, 118, 105, 97, 108, 0, 99] = true)
    ∧ (([116, 114, 105, 118, 105, 97, 108] : List Nat).length < 8 ∧
        sst_is_trivial [116, 114, 105, 118, 105, 97, 108] = false) :=
  ⟨⟨by decide, by decide,
      (sst_is_trivial_prefix_check [116, 114, 105, 118, 105, 97, 108, 0, 99]).1
        (by decide) (by decide)⟩,
    ⟨by decide,
      (sst_is_trivial_prefix_check [116, 114, 105, 118, 105, 97, 108]).2 (by decide)⟩⟩

/-! ### Claim C7 -/

/-- Claim C7: sst_received returns WSREP_OK exactly in the JOINING
and CONNECTED states and WSREP_CONN_FAIL otherwise, and in every case
it stores the result uuid and seqno and signals the condition before
the state check that decides the return value. -/
theorem sst_received_state_check (st : RState) (uuid : WsrepUUID) (seqno rcode : Int) :
    ((sst_received st uuid seqno rcode).ret = WStatus.WSREP_OK
        ↔ (st = RState.S_JOINING ∨ st = RState.S_CONNECTED))
    ∧ (sst_received st uuid seqno rcode).sst_uuid = uuid
    ∧ (sst_received st uuid seqno rcode).sst_seqno = (if rcode ≠ 0 then -1 else seqno)
    ∧ (sst_received st uuid seqno rcode).events
        = [SstEvent.storeUuid, SstEvent.storeSeqno, SstEvent.signalCond, SstEvent.checkState] := by
  refine ⟨?_, rfl, rfl, rfl⟩
  by_cases h : st = RState.S_JOINING ∨ st = RState.S_CONNECTED
  · simp [sst_received, h]
  · simp [sst_received, if_neg h]
    exact not_or.mp h

/-! ### Claim C4 -/

/-- Claim C4: on the donor, when the request carries an IST
descriptor with matching history uuid but the cache lock at
last_applied + 1 is not found: with a non-empty SST sub-payload the
donor falls through to full SST and invokes the SST callback in
non-bypass mode; with an empty SST sub-payload the result code is
ENODATA (negated) and no SST callback runs. -/
theorem donor_notfound_fallback (ctx : DonorCtx) (streq : StateRequest)
    (hskip : donorSkip streq.sstPayload = false)
    (hist : streq.istPayload.length ≠ 0)
    (huuid : (parseISTbytes streq.istPayload).uuid = ctx.state_uuid)
    (hlock : ctx.lockOk = false) :
    (streq.sstPayload.length ≠ 0 →
        (process_state_req ctx streq).fullDonated = true
      ∧ (process_state_req ctx streq).bypassDonated = false
      ∧ (process_state_req ctx streq).istLaunched = false)
    ∧ (streq.sstPayload.length = 0 →
        (process_state_req ctx streq).rcode = -ENODATA
      ∧ (process_state_req ctx streq).fullDonated = false
      ∧ (process_state_req ctx streq).bypassDonated = false
      ∧ (process_state_req ctx streq).joinCalled = true
      ∧ (process_state_req ctx streq).joinArg = -ENODATA) := by
  constructor
  · intro hsst
    simp [process_state_req, donorFullSst, donorOut, hskip, hlock, hist, huuid, hsst]
  · intro hsst
    simp [process_state_req, donorFullSst, donorOut, hskip, hlock, hist, huuid, hsst,
      ENODATA]

/-- Witness for claim C4 at a concrete context and request whose
descriptor uuid is the donor uuid and whose SST part is empty. -/
theorem donor_notfound_fallback_witness :
    donorSkip (StateRequest.v1 []
        ("00000000-0000-0000-0000-000000000000:5-9|p".toList.map Char.toNat)).sstPayload
      = false ∧
    (StateRequest.v1 []
        ("00000000-0000-0000-0000-000000000000:5-9|p".toList.map Char.toNat)).istPayload.length
      ≠ 0 ∧
    (parseISTbytes (StateRequest.v1 []
        ("00000000-0000-0000-0000-000000000000:5-9|p".toList.map Char.toNat)).istPayload).uuid
      = (⟨List.replicate 16 0⟩ : WsrepUUID) ∧
    (process_state_req
        { state_uuid := ⟨List.replicate 16 0⟩, cc_seqno := 9, donor_seq := 7,
          lockOk := false, bypassDonateOk := true, fullDonateOk := true,
          istRunErr := none }
        (StateRequest.v1 []
          ("00000000-0000-0000-0000-000000000000:5-9|p".toList.map Char.toNat))).rcode
      = -ENODATA :=
  ⟨by decide, by decide, by decide,
    ((donor_notfound_fallback
        { state_uuid := ⟨List.replicate 16 0⟩, cc_seqno := 9, donor_seq := 7,
          lockOk := false, bypassDonateOk := true, fullDonateOk := true,
          istRunErr := none }
        (StateRequest.v1 []
          ("00000000-0000-0000-0000-000000000000:5-9|p".toList.map Char.toNat))
        (by decide) (by decide) (by decide) (by decide)).2 (by decide)).1⟩

/-! ### Claim C6 -/

/-- Claim C6: whenever the donor takes the IST branch and the cache
lock is acquired, the lock duty is discharged exactly once: either
the scope guard unlocks (and the sender never took over), or
ownership passed to the IST sender (and the guard does not unlock);
the guard unlocks whenever the sender launch failed or the bypass
donate failed, and never when ownership was passed. -/
theorem donor_lock_released_once (ctx : DonorCtx) (streq : StateRequest)
    (hskip : donorSkip streq.sstPayload = false)
    (hist : streq.istPayload.length ≠ 0)
    (huuid : (parseISTbytes streq.istPayload).uuid = ctx.state_uuid)
    (hlock : ctx.lockOk = true) :
    (process_state_req ctx streq).lockAcquired = true
    ∧ (((process_state_req ctx streq).guardUnlock = true
          ∧ (process_state_req ctx streq).istLaunched = false)
        ∨ ((process_state_req ctx streq).guardUnlock = false
          ∧ (process_state_req ctx streq).istLaunched = true))
    ∧ ((process_state_req ctx streq).senderFailed = true →
        (process_state_req ctx streq).guardUnlock = true)
    ∧ ((process_state_req ctx streq).bypassFailed = true →
        (process_state_req ctx streq).guardUnlock = true)
    ∧ ((process_state_req ctx streq).istLaunched = true →
        (process_state_req ctx streq).guardUnlock = false) := by
  by_cases hsst : streq.sstPayload.length = 0
  · cases hrun : ctx.istRunErr with
    | none =>
      simp [process_state_req, donorIstLocked, donorOut, hskip, hlock, hist, huuid,
        hsst, hrun]
    | some e =>
      simp [process_state_req, donorIstLocked, donorOut, hskip, hlock, hist, huuid,
        hsst, hrun]
  · by_cases hbp : ctx.bypassDonateOk
    · by_cases hge : (parseISTbytes streq.istPayload).last_applied ≥ 0
      · cases hrun : ctx.istRunErr with
        | none =>
          simp [process_state_req, donorIstLocked, donorOut, hskip, hlock, hist,
            huuid, hsst, hbp, hge, hrun]
        | some e =>
          simp [process_state_req, donorIstLocked, donorOut, hskip, hlock, hist,
            huuid, hsst, hbp, hge, hrun]
      · simp [process_state_req, donorIstLocked, donorOut, hskip, hlock, hist,
          huuid, hsst, hbp, hge]
    · have hneg : ¬ ((-ECANCELED : Int) ≥ 0) := by simp [ECANCELED]
      simp [process_state_req, donorIstLocked, donorOut, hskip, hlock, hist,
        huuid, hsst, hbp, hneg]

/-- Witness for claim C6: with the same descriptor, empty SST part
and a sender that launches, ownership passes and the guard does not
unlock. -/
theorem donor_lock_released_once_witness :
    donorSkip (StateRequest.v1 []
        ("00000000-0000-0000-0000-000000000000:5-9|q".toList.map Char.toNat)).sstPayload
      = false ∧
    (StateRequest.v1 []
        ("00000000-0000-0000-0000-000000000000:5-9|q".toList.map Char.toNat)).istPayload.length
      ≠ 0 ∧
    (process_state_req
        { state_uuid := ⟨List.replicate 16 0⟩, cc_seqno := 9, donor_seq := 7,
          lockOk := true, bypassDonateOk := true, fullDonateOk := true,
          istRunErr := none }
        (StateRequest.v1 []
          ("00000000-0000-0000-0000-000000000000:5-9|q".toList.map Char.toNat))).lockAcquired
      = true :=
  ⟨by decide, by decide,
    (donor_lock_released_once
        { state_uuid := ⟨List.replicate 16 0⟩, cc_seqno := 9, donor_seq := 7,
          lockOk := true, bypassDonateOk := true, fullDonateOk := true,
          istRunErr := none }
        (StateRequest.v1 []
          ("00000000-0000-0000-0000-000000000000:5-9|q".toList.map Char.toNat))
        (by decide) (by decide) (by decide) (by decide)).1⟩

/-! ### Claim C5 -/

/-- Generalized over the running call counter: a run whose earlier
group-layer outcomes all stay in the retry loop and then hits ENODATA
aborts at once, restoring the safe mark exactly when mu is set, and
makes no further group-layer call. -/
theorem sendLoop_enodata_aborts (mu sgc : Bool) (a : Attempt) (post : List Attempt)
    (ha : a.ret = -ENODATA) :
    ∀ (pre : List Attempt) (calls : Nat), (∀ x ∈ pre, retry_str (effRet x) = true) →
      sendLoop mu sgc (pre ++ a :: post) calls =
        { outcome := SendOutcome.aborted,
          markerOps := if mu then [MarkerOp.markSafe] else [],
          gcsCalls := calls + pre.length + 1, sstReqFailed := false } := by
  intro pre
  induction pre with
  | nil =>
    intro calls _
    simp [sendLoop, ha]
  | cons x xs ih =>
    intro calls hpre
    have hx : retry_str (effRet x) = true := hpre x (by simp)
    have hxne : ¬ x.ret = -ENODATA := by
      unfold effRet at hx
      by_cases hb : x.seqno_l ≠ -1 ∧ x.wouldBlock
      · rw [if_pos hb] at hx
        simp [retry_str, EDEADLK, EAGAIN, ENOTCONN] at hx
      · rw [if_neg hb] at hx
        simp only [retry_str, decide_eq_true_iff] at hx
        rcases hx with h | h <;> simp [h, EAGAIN, ENOTCONN, ENODATA]
    have hrest : ∀ y ∈ xs, retry_str (effRet y) = true := by
      intro y hy
      exact hpre y (by simp [hy])
    have step : sendLoop mu sgc ((x :: xs) ++ a :: post) calls
        = sendLoop mu sgc (xs ++ a :: post) (calls + 1) := by
      simp only [List.cons_append, sendLoop, if_neg hxne, List.append_eq]
      rw [if_pos hx]
    rw [step, ih (calls + 1) hrest]
    simp only [SendResult.mk.injEq, List.length_cons, and_true, true_and]
    omega

/-- Claim C5: in send_state_request, a group-layer ENODATA result
aborts the process immediately; if the marker store had been flagged
before sending (mu set) it is marked safe again first; the retry loop
is never re-entered after ENODATA (exactly the prior attempts plus
this one reach the group layer). -/
theorem send_state_request_enodata (mu sgc : Bool) (pre post : List Attempt)
    (a : Attempt) (hpre : ∀ x ∈ pre, retry_str (effRet x) = true)
    (ha : a.ret = -ENODATA) :
    send_state_request mu sgc (pre ++ a :: post) =
      { outcome := SendOutcome.aborted,
        markerOps := if mu then [MarkerOp.markSafe] else [],
        gcsCalls := pre.length + 1, sstReqFailed := false } := by
  have h := sendLoop_enodata_aborts mu sgc a post ha pre 0 hpre
  simpa [send_state_request] using h

/-- Witness for claim C5: one retryable EAGAIN outcome, then ENODATA;
with mu set the run aborts after two group calls, restoring the safe
mark; the third outcome in the list is never consumed. -/
theorem send_state_request_enodata_witness :
    (∀ x ∈ [Attempt.mk (-11) (-1) false], retry_str (effRet x) = true) ∧
      (Attempt.mk (-61) (-1) false).ret = -ENODATA ∧
      send_state_request true true
          [Attempt.mk (-11) (-1) false, Attempt.mk (-61) (-1) false,
            Attempt.mk 3 4 false] =
        { outcome := SendOutcome.aborted, markerOps := [MarkerOp.markSafe],
          gcsCalls := 2, sstReqFailed := false } :=
  ⟨by decide, by decide,
    send_state_request_enodata true true [Attempt.mk (-11) (-1) false]
      [Attempt.mk 3 4 false] (Attempt.mk (-61) (-1) false) (by decide) (by decide)⟩

/-! ### Parser round-trip lemmas for the IST descriptor -/

theorem hexVal_hexDigitChar : ∀ d < 16, hexVal (hexDigitChar d) = some d := by decide

theorem isSpaceC_hexDigitChar : ∀ d < 16, isSpaceC (hexDigitChar d) = false := by decide

theorem isDigitC_digitChar : ∀ d < 10, isDigitC (digitChar d) = true := by decide

theorem toNat_digitChar : ∀ d < 10, (digitChar d).toNat = 48 + d := by decide

/-- Reading back the two hex characters of a byte. -/
theorem readHexByte_byteToHex (b : Nat) (hb : b < 256) (rest : List Char) :
    readHexByte (byteToHex b ++ rest) = some (b, rest) := by
  have h1 : hexVal (hexDigitChar (b / 16)) = some (b / 16) :=
    hexVal_hexDigitChar _ (by omega)
  have h2 : hexVal (hexDigitChar (b % 16)) = some (b % 16) :=
    hexVal_hexDigitChar _ (by omega)
  simp only [byteToHex, List.cons_append, List.nil_append, readHexByte, h1, h2]
  congr 1
  simp
  omega

theorem bytesToHex_cons (b : Nat) (bs : List Nat) :
    bytesToHex (b :: bs) = byteToHex b ++ bytesToHex bs := by
  simp [bytesToHex]

/-- Reading back the hex characters of a byte string. -/
theorem readHexBytes_bytesToHex (bs : List Nat) (rest : List Char)
    (hb : ∀ b ∈ bs, b < 256) :
    readHexBytes bs.length (bytesToHex bs ++ rest) = some (bs, rest) := by
  induction bs generalizing rest with
  | nil => simp [bytesToHex, readHexBytes]
  | cons b t ih =>
    have hb0 : b < 256 := hb b (by simp)
    have hbt : ∀ x ∈ t, x < 256 := fun x hx => hb x (by simp [hx])
    simp only [bytesToHex_cons, List.append_assoc, List.length_cons, readHexBytes,
      readHexByte_byteToHex b hb0, ih _ hbt]

/-- skipWs keeps a list whose head is not whitespace. -/
theorem skipWs_cons_nonspace (c : Char) (l : List Char) (h : isSpaceC c = false) :
    skipWs (c :: l) = c :: l := by
  simp [skipWs, List.dropWhile_cons, h]

/-- skipWs keeps hex text. -/
theorem skipWs_bytesToHex (bs : List Nat) (rest : List Char)
    (hne : bs ≠ []) (hb : ∀ b ∈ bs, b < 256) :
    skipWs (bytesToHex bs ++ rest) = bytesToHex bs ++ rest := by
  cases bs with
  | nil => exact absurd rfl hne
  | cons b t =>
    have hb0 : b < 256 := hb b (by simp)
    rw [bytesToHex_cons]
    simp only [byteToHex, List.cons_append, List.nil_append]
    exact skipWs_cons_nonspace _ _ (isSpaceC_hexDigitChar _ (by omega))

theorem expectChar_cons (c : Char) (rest : List Char) :
    expectChar c (c :: rest) = some rest := by
  simp [expectChar]

/-- Reading back the canonical text of a well-formed uuid. -/
theorem readUuid_uuidToChars (u : WsrepUUID) (rest : List Char)
    (h16 : u.data.length = 16) (hb : ∀ b ∈ u.data, b < 256) :
    readUuid (uuidToChars u ++ rest) = some (u, rest) := by
  have hg1 : ∀ b ∈ u.data.take 4, b < 256 := fun b h => hb b (List.take_subset _ _ h)
  have hg2 : ∀ b ∈ (u.data.drop 4).take 2, b < 256 :=
    fun b h => hb b (List.drop_subset _ _ (List.take_subset _ _ h))
  have hg3 : ∀ b ∈ (u.data.drop 6).take 2, b < 256 :=
    fun b h => hb b (List.drop_subset _ _ (List.take_subset _ _ h))
  have hg4 : ∀ b ∈ (u.data.drop 8).take 2, b < 256 :=
    fun b h => hb b (List.drop_subset _ _ (List.take_subset _ _ h))
  have hg5 : ∀ b ∈ u.data.drop 10, b < 256 := fun b h => hb b (List.drop_subset _ _ h)
  have hl1 : (u.data.take 4).length = 4 := by simp [List.length_take, h16]
  have hl2 : ((u.data.drop 4).take 2).length = 2 := by simp [List.length_take, h16]
  have hl3 : ((u.data.drop 6).take 2).length = 2 := by simp [List.length_take, h16]
  have hl4 : ((u.data.drop 8).take 2).length = 2 := by simp [List.length_take, h16]
  have hl5 : (u.data.drop 10).length = 6 := by simp [h16]
  have hrearr :
      uuidToChars u ++ rest
        = bytesToHex (u.data.take 4) ++
            (Char.ofNat 45 :: (bytesToHex ((u.data.drop 4).take 2) ++
              (Char.ofNat 45 :: (bytesToHex ((u.data.drop 6).take 2) ++
                (Char.ofNat 45 :: (bytesToHex ((u.data.drop 8).take 2) ++
                  (Char.ofNat 45 :: (bytesToHex (u.data.drop 10) ++ rest)))))))) := by
    simp [uuidToChars, List.append_assoc]
  have hassemble :
      u.data.take 4 ++ ((u.data.drop 4).take 2 ++ ((u.data.drop 6).take 2 ++
        ((u.data.drop 8).take 2 ++ u.data.drop 10))) = u.data := by
    have e1 : (u.data.drop 4).drop 2 = u.data.drop 6 := by
      rw [List.drop_drop]
    have e2 : (u.data.drop 6).drop 2 = u.data.drop 8 := by
      rw [List.drop_drop]
    have e3 : (u.data.drop 8).drop 2 = u.data.drop 10 := by
      rw [List.drop_drop]
    conv_rhs => rw [← List.take_append_drop 4 u.data]
    congr 1
    conv_rhs => rw [← List.take_append_drop 2 (u.data.drop 4)]
    rw [e1]
    congr 1
    conv_rhs => rw [← List.take_append_drop 2 (u.data.drop 6)]
    rw [e2]
    congr 1
    conv_rhs => rw [← List.take_append_drop 2 (u.data.drop 8)]
    rw [e3]
  have hskip :
      skipWs (bytesToHex (u.data.take 4) ++
          (Char.ofNat 45 :: (bytesToHex ((u.data.drop 4).take 2) ++
            (Char.ofNat 45 :: (bytesToHex ((u.data.drop 6).take 2) ++
              (Char.ofNat 45 :: (bytesToHex ((u.data.drop 8).take 2) ++
                (Char.ofNat 45 :: (bytesToHex (u.data.drop 10) ++ rest)))))))))
        = bytesToHex (u.data.take 4) ++
            (Char.ofNat 45 :: (bytesToHex ((u.data.drop 4).take 2) ++
              (Char.ofNat 45 :: (bytesToHex ((u.data.drop 6).take 2) ++
                (Char.ofNat 45 :: (bytesToHex ((u.data.drop 8).take 2) ++
                  (Char.ofNat 45 :: (bytesToHex (u.data.drop 10) ++ rest)))))))) :=
    skipWs_bytesToHex _ _ (by intro h; rw [h] at hl1; simp at hl1) hg1
  have hr1 := readHexBytes_bytesToHex (u.data.take 4)
    (Char.ofNat 45 :: (bytesToHex ((u.data.drop 4).take 2) ++
      (Char.ofNat 45 :: (bytesToHex ((u.data.drop 6).take 2) ++
        (Char.ofNat 45 :: (bytesToHex ((u.data.drop 8).take 2) ++
          (Char.ofNat 45 :: (bytesToHex (u.data.drop 10) ++ rest)))))))) hg1
  rw [hl1] at hr1
  have hr2 := readHexBytes_bytesToHex ((u.data.drop 4).take 2)
    (Char.ofNat 45 :: (bytesToHex ((u.data.drop 6).take 2) ++
      (Char.ofNat 45 :: (bytesToHex ((u.data.drop 8).take 2) ++
        (Char.ofNat 45 :: (bytesToHex (u.data.drop 10) ++ rest)))))) hg2
  rw [hl2] at hr2
  have hr3 := readHexBytes_bytesToHex ((u.data.drop 6).take 2)
    (Char.ofNat 45 :: (bytesToHex ((u.data.drop 8).take 2) ++
      (Char.ofNat 45 :: (bytesToHex (u.data.drop 10) ++ rest)))) hg3
  rw [hl3] at hr3
  have hr4 := readHexBytes_bytesToHex ((u.data.drop 8).take 2)
    (Char.ofNat 45 :: (bytesToHex (u.data.drop 10) ++ rest)) hg4
  rw [hl4] at hr4
  have hr5 := readHexBytes_bytesToHex (u.data.drop 10) rest hg5
  rw [hl5] at hr5
  rw [hrearr]
  unfold readUuid
  rw [hskip]
  simp only [hr1, expectChar_cons, hr2, hr3, hr4, hr5, Option.some.injEq,
    Prod.mk.injEq, WsrepUUID.mk.injEq]
  refine ⟨?_, trivial⟩
  have hassemble2 :
      u.data.take 4 ++ (u.data.drop 4).take 2 ++ (u.data.drop 6).take 2 ++
        (u.data.drop 8).take 2 ++ u.data.drop 10 = u.data := by
    simpa [List.append_assoc] using hassemble
  rw [hassemble2]

/-- Every character printed by natToCharsAux is a decimal digit. -/
theorem natToCharsAux_digits :
    ∀ (fuel n : Nat), ∀ c ∈ natToCharsAux fuel n, isDigitC c = true := by
  intro fuel
  induction fuel with
  | zero => intro n c hc; simp [natToCharsAux] at hc
  | succ f ih =>
    intro n c hc
    by_cases hn : n = 0
    · simp [natToCharsAux, hn] at hc
    · rw [natToCharsAux, if_neg hn] at hc
      rcases List.mem_append.mp hc with h | h
      · exact ih _ c h
      · simp only [List.mem_singleton] at h
        subst h
        exact isDigitC_digitChar _ (by omega)

/-- Every character printed by natToChars is a decimal digit. -/
theorem natToChars_digits (n : Nat) : ∀ c ∈ natToChars n, isDigitC c = true := by
  intro c hc
  unfold natToChars at hc
  by_cases hn : n = 0
  · rw [if_pos hn] at hc
    simp only [List.mem_singleton] at hc
    subst hc
    exact isDigitC_digitChar _ (by omega)
  · rw [if_neg hn] at hc
    exact natToCharsAux_digits n n c hc

/-- natToChars never prints the empty string. -/
theorem natToChars_ne_nil (n : Nat) : natToChars n ≠ [] := by
  unfold natToChars
  by_cases hn : n = 0
  · simp [hn]
  · rw [if_neg hn]
    obtain ⟨f, hf⟩ : ∃ f, n = f + 1 := ⟨n - 1, by omega⟩
    rw [hf]
    rw [natToCharsAux, if_neg (by omega : ¬ f + 1 = 0)]
    simp

/-- Appending one digit multiplies the accumulated value by ten. -/
theorem charsToNat_append_singleton (l : List Char) (c : Char) :
    charsToNat (l ++ [c]) = charsToNat l * 10 + (c.toNat - 48) := by
  simp [charsToNat, List.foldl_append]

/-- The digit text of n below the fuel evaluates back to n. -/
theorem charsToNat_natToCharsAux :
    ∀ (fuel n : Nat), n ≤ fuel → charsToNat (natToCharsAux fuel n) = n := by
  intro fuel
  induction fuel with
  | zero =>
    intro n hn
    have : n = 0 := by omega
    simp [this, natToCharsAux, charsToNat]
  | succ f ih =>
    intro n hn
    by_cases h0 : n = 0
    · simp [h0, natToCharsAux, charsToNat]
    · rw [natToCharsAux, if_neg h0, charsToNat_append_singleton]
      have hdiv : n / 10 ≤ f := by omega
      rw [ih _ hdiv]
      have := toNat_digitChar (n % 10) (by omega)
      rw [this]
      omega

/-- The decimal text of n evaluates back to n. -/
theorem charsToNat_natToChars (n : Nat) : charsToNat (natToChars n) = n := by
  unfold natToChars
  by_cases hn : n = 0
  · simp [hn, charsToNat, digitChar]
  · rw [if_neg hn]
    exact charsToNat_natToCharsAux n n (le_refl n)

/-- takeWhile over a satisfying block followed by a stopping rest. -/
theorem takeWhile_block_append (p : Char → Bool) :
    ∀ (l rest : List Char), (∀ c ∈ l, p c = true) →
      (∀ c, rest.head? = some c → p c = false) →
      (l ++ rest).takeWhile p = l := by
  intro l
  induction l with
  | nil =>
    intro rest _ hr
    cases rest with
    | nil => simp
    | cons c t =>
      simp only [List.nil_append, List.takeWhile_cons, hr c rfl]
      simp
  | cons c t ih =>
    intro rest hl hr
    have hc : p c = true := hl c (by simp)
    simp only [List.cons_append, List.takeWhile_cons, hc]
    simp only [if_true]
    rw [ih rest (fun x hx => hl x (by simp [hx])) hr]

/-- dropWhile over a satisfying block followed by a stopping rest. -/
theorem dropWhile_block_append (p : Char → Bool) :
    ∀ (l rest : List Char), (∀ c ∈ l, p c = true) →
      (∀ c, rest.head? = some c → p c = false) →
      (l ++ rest).dropWhile p = rest := by
  intro l
  induction l with
  | nil =>
    intro rest _ hr
    cases rest with
    | nil => simp
    | cons c t =>
      simp only [List.nil_append, List.dropWhile_cons, hr c rfl]
      simp
  | cons c t ih =>
    intro rest hl hr
    have hc : p c = true := hl c (by simp)
    simp only [List.cons_append, List.dropWhile_cons, hc]
    simp only [if_true]
    exact ih rest (fun x hx => hl x (by simp [hx])) hr

/-- Reading back the decimal text of a natural number. -/
theorem readNat_natToChars (n : Nat) (rest : List Char)
    (hr : ∀ c, rest.head? = some c → isDigitC c = false) :
    readNat (natToChars n ++ rest) = some (n, rest) := by
  have htw := takeWhile_block_append isDigitC (natToChars n) rest (natToChars_digits n) hr
  have hdw := dropWhile_block_append isDigitC (natToChars n) rest (natToChars_digits n) hr
  unfold readNat
  simp only [htw, hdw]
  rw [if_neg (natToChars_ne_nil n), charsToNat_natToChars]

/-- Digits are not whitespace. -/
theorem isSpaceC_of_isDigitC (c : Char) (h : isDigitC c = true) : isSpaceC c = false := by
  simp only [isDigitC, decide_eq_true_iff] at h
  simp only [isSpaceC, decide_eq_false_iff_not]
  omega

/-- Digits are not the minus sign. -/
theorem digit_ne_minus (c : Char) (h : isDigitC c = true) : ¬ c = Char.ofNat 45 := by
  intro he
  subst he
  exact absurd h (by decide)

/-- Digits are not the plus sign. -/
theorem digit_ne_plus (c : Char) (h : isDigitC c = true) : ¬ c = Char.ofNat 43 := by
  intro he
  subst he
  exact absurd h (by decide)

/-- readInt on a list whose head is not whitespace. -/
theorem readInt_cons (c : Char) (l : List Char) (h : isSpaceC c = false) :
    readInt (c :: l) =
      (if c = Char.ofNat 45 then (readNat l).map (fun p => (-(p.1 : Int), p.2))
       else if c = Char.ofNat 43 then (readNat l).map (fun p => ((p.1 : Int), p.2))
       else (readNat (c :: l)).map (fun p => ((p.1 : Int), p.2))) := by
  unfold readInt
  rw [skipWs_cons_nonspace c l h]

/-- Reading back the decimal text of an integer. -/
theorem readInt_intChars (i : Int) (rest : List Char)
    (hr : ∀ c, rest.head? = some c → isDigitC c = false) :
    readInt (intChars i ++ rest) = some (i, rest) := by
  by_cases hneg : i < 0
  · rw [intChars, if_pos hneg]
    rw [List.cons_append, readInt_cons _ _ (by decide), if_pos rfl,
      readNat_natToChars _ _ hr]
    show some ((-(i.natAbs : Int)), rest) = some (i, rest)
    have hi : (-(i.natAbs : Int)) = i := by omega
    rw [hi]
  · rw [intChars, if_neg hneg]
    cases hnc : natToChars i.natAbs with
    | nil => exact absurd hnc (natToChars_ne_nil _)
    | cons c t =>
      have hcd : isDigitC c = true := natToChars_digits _ c (by rw [hnc]; simp)
      rw [List.cons_append, readInt_cons c _ (isSpaceC_of_isDigitC c hcd),
        if_neg (digit_ne_minus c hcd), if_neg (digit_ne_plus c hcd),
        ← List.cons_append, ← hnc, readNat_natToChars _ _ hr]
      show some (((i.natAbs : Nat) : Int), rest) = some (i, rest)
      have hi : ((i.natAbs : Nat) : Int) = i := by omega
      rw [hi]

/-- Reading back a nonempty whitespace-free token consumes it all. -/
theorem readString_token (peer : List Char) (hp : ∀ c ∈ peer, isSpaceC c = false)
    (hne : peer ≠ []) : readString peer = some (peer, []) := by
  cases peer with
  | nil => exact absurd rfl hne
  | cons c t =>
    have hsp : isSpaceC c = false := hp c (by simp)
    have h1 := takeWhile_block_append (fun x => ! isSpaceC x) (c :: t) []
      (by intro x hx; simp [hp x hx]) (by intro x hx; simp at hx)
    have h2 := dropWhile_block_append (fun x => ! isSpaceC x) (c :: t) []
      (by intro x hx; simp [hp x hx]) (by intro x hx; simp at hx)
    simp only [List.append_nil] at h1 h2
    simp only [readString, skipWs_cons_nonspace c t hsp, h1, h2]
    simp

/-- Char extraction takes the head when it is not whitespace. -/
theorem readChar_cons (c : Char) (l : List Char) (h : isSpaceC c = false) :
    readChar (c :: l) = some (c, l) := by
  simp only [readChar, skipWs_cons_nonspace c l h]

/-- Parsing a descriptor text with arbitrary single separator
characters: operator>> never validates the separators, so any
non-whitespace character (non-digit where a number precedes) is
consumed in place of the colon, hyphen and bar, and the fields parse
back unchanged. -/
theorem parseIST_formatted (u : WsrepUUID) (la gs : Int) (peer : List Char)
    (s1 s2 s3 : Char)
    (h16 : u.data.length = 16) (hb : ∀ b ∈ u.data, b < 256)
    (hp : ∀ c ∈ peer, isSpaceC c = false)
    (h1 : isSpaceC s1 = false)
    (h2s : isSpaceC s2 = false) (h2d : isDigitC s2 = false)
    (h3s : isSpaceC s3 = false) (h3d : isDigitC s3 = false) :
    (parseIST (uuidToChars u ++ s1 :: (intChars la ++ s2 :: (intChars gs ++ s3 :: peer)))).1
        = { peer := peer, uuid := u, last_applied := la, group_seqno := gs }
    ∧ (peer ≠ [] →
        parseIST (uuidToChars u ++ s1 :: (intChars la ++ s2 :: (intChars gs ++ s3 :: peer)))
          = ({ peer := peer, uuid := u, last_applied := la, group_seqno := gs }, true)) := by
  have e1 := readUuid_uuidToChars u
    (s1 :: (intChars la ++ s2 :: (intChars gs ++ s3 :: peer))) h16 hb
  have e2 := readChar_cons s1 (intChars la ++ s2 :: (intChars gs ++ s3 :: peer)) h1
  have e3 : readInt (intChars la ++ s2 :: (intChars gs ++ s3 :: peer))
      = some (la, s2 :: (intChars gs ++ s3 :: peer)) :=
    readInt_intChars la _ (by
      intro c hc
      simp only [List.head?_cons, Option.some.injEq] at hc
      exact hc ▸ h2d)
  have e4 := readChar_cons s2 (intChars gs ++ s3 :: peer) h2s
  have e5 : readInt (intChars gs ++ s3 :: peer) = some (gs, s3 :: peer) :=
    readInt_intChars gs _ (by
      intro c hc
      simp only [List.head?_cons, Option.some.injEq] at hc
      exact hc ▸ h3d)
  have e6 := readChar_cons s3 peer h3s
  constructor
  · by_cases hpe : peer = []
    · subst hpe
      simp [parseIST, e1, e2, e3, e4, e5, e6, readString, skipWs, defaultIST]
    · have e7 := readString_token peer hp hpe
      simp [parseIST, e1, e2, e3, e4, e5, e6, e7]
  · intro hpe
    have e7 := readString_token peer hp hpe
    simp [parseIST, e1, e2, e3, e4, e5, e6, e7]

/-! ### Claim C8 -/

/-- Claim C8 counterexample: a descriptor whose peer contains a space
does not survive the round trip; string extraction stops at the
whitespace and the parsed peer is only the first token. -/
theorem ist_descriptor_roundtrip_cex :
    (parseIST (formatIST
      { peer := "a b".toList, uuid := ⟨List.replicate 16 0⟩,
        last_applied := 0, group_seqno := 0 })).1
      ≠ { peer := "a b".toList, uuid := ⟨List.replicate 16 0⟩,
          last_applied := 0, group_seqno := 0 } := by decide

/-- Claim C8 amended: parse of format gives back the descriptor for
every uuid of 16 bytes, every int64 pair of seqnos and every peer
that contains no whitespace characters. -/
theorem ist_descriptor_roundtrip (u : WsrepUUID) (la gs : Int) (peer : List Char)
    (h16 : u.data.length = 16) (hb : ∀ b ∈ u.data, b < 256)
    (hla : -(2 ^ 63) ≤ la ∧ la < 2 ^ 63) (hgs : -(2 ^ 63) ≤ gs ∧ gs < 2 ^ 63)
    (hp : ∀ c ∈ peer, isSpaceC c = false) :
    (parseIST (formatIST
        { peer := peer, uuid := u, last_applied := la, group_seqno := gs })).1
      = { peer := peer, uuid := u, last_applied := la, group_seqno := gs } := by
  have h := parseIST_formatted u la gs peer (Char.ofNat 58) (Char.ofNat 45)
    (Char.ofNat 124) h16 hb hp (by decide) (by decide) (by decide) (by decide)
    (by decide)
  simpa [formatIST] using h.1

/-- Witness for the amended claim C8 at a concrete descriptor with a
negative last_applied seqno. -/
theorem ist_descriptor_roundtrip_witness :
    (⟨List.replicate 16 0⟩ : WsrepUUID).data.length = 16 ∧
      (∀ b ∈ (⟨List.replicate 16 0⟩ : WsrepUUID).data, b < 256) ∧
      (-(2 ^ 63) ≤ (-1 : Int) ∧ (-1 : Int) < 2 ^ 63) ∧
      (-(2 ^ 63) ≤ (100 : Int) ∧ (100 : Int) < 2 ^ 63) ∧
      (∀ c ∈ "tcp".toList, isSpaceC c = false) ∧
      (parseIST (formatIST
          { peer := "tcp".toList, uuid := ⟨List.replicate 16 0⟩,
            last_applied := -1, group_seqno := 100 })).1
        = { peer := "tcp".toList, uuid := ⟨List.replicate 16 0⟩,
            last_applied := -1, group_seqno := 100 } :=
  ⟨by decide, by decide, by decide, by decide, by decide,
    ist_descriptor_roundtrip ⟨List.replicate 16 0⟩ (-1) 100 ("tcp".toList)
      (by decide) (by decide) (by decide) (by decide) (by decide)⟩

/-! ### Claim C9 -/

/-- Claim C9 counterexample: replacing the colon with a semicolon
does not make parsing fail; the descriptor is parsed successfully
with all fields intact and the stream still good. -/
theorem ist_descriptor_separator_cex :
    parseIST ("00000000-0000-0000-0000-000000000000;0-1|p".toList) =
      ({ peer := "p".toList, uuid := ⟨List.replicate 16 0⟩,
         last_applied := 0, group_seqno := 1 }, true) := rfl

/-- Claim C9 amended: operator>> reads one character at each
separator position without comparing it to the expected colon, hyphen
or bar; parsing succeeds and returns the same fields for every
non-whitespace separator characters (non-digit after a number), so a
separator mismatch is never rejected. -/
theorem ist_descriptor_any_separator (u : WsrepUUID) (la gs : Int)
    (peer : List Char) (s1 s2 s3 : Char)
    (h16 : u.data.length = 16) (hb : ∀ b ∈ u.data, b < 256)
    (hp : ∀ c ∈ peer, isSpaceC c = false) (hpe : peer ≠ [])
    (h1 : isSpaceC s1 = false)
    (h2s : isSpaceC s2 = false) (h2d : isDigitC s2 = false)
    (h3s : isSpaceC s3 = false) (h3d : isDigitC s3 = false) :
    parseIST (uuidToChars u ++ s1 :: (intChars la ++ s2 :: (intChars gs ++ s3 :: peer)))
      = ({ peer := peer, uuid := u, last_applied := la, group_seqno := gs }, true) :=
  (parseIST_formatted u la gs peer s1 s2 s3 h16 hb hp h1 h2s h2d h3s h3d).2 hpe

/-- Witness for the amended claim C9 with semicolon, plus and caret
in place of the colon, hyphen and bar. -/
theorem ist_descriptor_any_separator_witness :
    (⟨List.replicate 16 0⟩ : WsrepUUID).data.length = 16 ∧
      (∀ b ∈ (⟨List.replicate 16 0⟩ : WsrepUUID).data, b < 256) ∧
      (∀ c ∈ "q".toList, isSpaceC c = false) ∧ "q".toList ≠ [] ∧
      isSpaceC (Char.ofNat 59) = false ∧
      isSpaceC (Char.ofNat 43) = false ∧ isDigitC (Char.ofNat 43) = false ∧
      isSpaceC (Char.ofNat 94) = false ∧ isDigitC (Char.ofNat 94) = false ∧
      parseIST (uuidToChars ⟨List.replicate 16 0⟩ ++
          Char.ofNat 59 :: (intChars 7 ++
            Char.ofNat 43 :: (intChars 9 ++ Char.ofNat 94 :: "q".toList)))
        = ({ peer := "q".toList, uuid := ⟨List.replicate 16 0⟩,
             last_applied := 7, group_seqno := 9 }, true) :=
  ⟨by decide, by decide, by decide, by decide, by decide, by decide, by decide,
    by decide, by decide,
    ist_descriptor_any_separator ⟨List.replicate 16 0⟩ 7 9 ("q".toList)
      (Char.ofNat 59) (Char.ofNat 43) (Char.ofNat 94) (by decide) (by decide)
      (by decide) (by decide) (by decide) (by decide) (by decide) (by decide)
      (by decide)⟩
